import Mathlib

/-!
# Verification of the GAMESS log extraction / classification script

A shallow embedding of `GamessToExcelReaderV2.py` (the spreadsheet variant,
`GamessToExcelReaderV3`, which is the variant the specification follows).
Python strings are modelled as Lean `String` / `List Char`; the regular
expressions of the source are unrolled into explicit character-list parsers
with the same leftmost-match and greedy/lazy semantics (every adjacent pair
of quantified character classes in the source patterns is disjoint, so the
matching is deterministic and can be written as a straight-line scanner).
Python `float` values produced by `float(...)` on matched decimal literals
are modelled exactly as rationals (`Rat`); no claim depends on binary
floating-point rounding.  Fallible operations return `Option`.
-/

namespace Gamess

/-- Python's `\s` character class restricted to ASCII:
space, tab, newline, carriage return, vertical tab, form feed. -/
def isSpaceCh (c : Char) : Bool :=
  c = ' ' || c = '\t' || c = '\n' || c = '\r' || c = '\x0b' || c = '\x0c'

/-- Substring test: `pat` occurs somewhere in the character list
(Python's `pat in text`). -/
def hasSub (pat : List Char) : List Char → Bool
  | [] => pat.isPrefixOf []
  | c :: cs => pat.isPrefixOf (c :: cs) || hasSub pat cs

/-- Substring test on strings. -/
def hasSubStr (pat s : String) : Bool := hasSub pat.toList s.toList

/-- The suffix of `cs` that follows the first occurrence of `pat`
(`none` when `pat` does not occur). -/
def dropToSubEnd (pat : List Char) : List Char → Option (List Char)
  | [] => if pat.isPrefixOf [] then some [] else none
  | c :: cs =>
    if pat.isPrefixOf (c :: cs) then some ((c :: cs).drop pat.length)
    else dropToSubEnd pat cs

/-- Match a literal at the head of the list, returning the rest. -/
def dropLit (lit cs : List Char) : Option (List Char) :=
  if lit.isPrefixOf cs then some (cs.drop lit.length) else none

/-- Regex `\d+` (greedy): the digit run and the rest; fails on zero digits. -/
def digits1 (cs : List Char) : Option (List Char × List Char) :=
  let ds := cs.takeWhile Char.isDigit
  if ds.isEmpty then none else some (ds, cs.dropWhile Char.isDigit)

/-- Regex `\s+` (greedy): requires at least one whitespace char. -/
def spaces1 (cs : List Char) : Option (List Char) :=
  match cs with
  | [] => none
  | c :: rest => if isSpaceCh c then some (rest.dropWhile isSpaceCh) else none

/-- Numeric value of a digit run. -/
def natOfDigits (ds : List Char) : Nat :=
  ds.foldl (fun a c => a * 10 + (c.toNat - 48)) 0

/-- The exact rational value of the decimal literal `ip.fp`
(what Python's `float(...)` parses, modelled without rounding). -/
def decOfParts (ip fp : List Char) : Rat :=
  ((natOfDigits ip * 10 ^ fp.length + natOfDigits fp : Nat) : Rat) /
    (10 : Rat) ^ fp.length

/-- Regex `\d+\.\d+` at the head of the list, returning its value and the
rest. -/
def unsignedDec (cs : List Char) : Option (Rat × List Char) :=
  match digits1 cs with
  | none => none
  | some (ip, r1) =>
    match r1 with
    | '.' :: r2 =>
      match digits1 r2 with
      | none => none
      | some (fp, r3) => some (decOfParts ip fp, r3)
    | _ => none

/-- Regex `-?\d+\.\d+` at the head of the list. -/
def signedDec (cs : List Char) : Option (Rat × List Char) :=
  match cs with
  | '-' :: rest => (unsignedDec rest).map (fun p => (-p.1, p.2))
  | _ => unsignedDec cs

/-- Regex `[0-9]+\.\d+` at the head of the list, returning the matched
characters themselves (used by `run_time`, whose caller keeps the string). -/
def decTok (cs : List Char) : Option (List Char × List Char) :=
  match digits1 cs with
  | none => none
  | some (ip, r1) =>
    match r1 with
    | '.' :: r2 =>
      match digits1 r2 with
      | none => none
      | some (fp, r3) => some (ip ++ '.' :: fp, r3)
    | _ => none

/-- `re.search` driver: try the pattern at each position, left to right,
returning the leftmost match. -/
def searchL {α : Type} (tryAt : List Char → Option α) : List Char → Option α
  | [] => tryAt []
  | c :: cs =>
    match tryAt (c :: cs) with
    | some v => some v
    | none => searchL tryAt cs

-- ## The four pattern extractors

def bondHeaderStr : String := "INTERNUCLEAR DISTANCES (ANGS.)"
def heatStr : String := "HEAT OF FORMATION IS"
def energyStr : String := "TOTAL ENERGY"
def rtStr : String := "TOTAL WALL CLOCK TIME="

/-- The row part `\n\s*\d+\s+[A-Z]+\s+([0-9]+\.\d+)\s+\*` of the
bond-length regex, anchored at the head of the list. -/
def tryRow (cs : List Char) : Option Rat :=
  match cs with
  | '\n' :: r0 =>
    let r1 := r0.dropWhile isSpaceCh
    match digits1 r1 with
    | none => none
    | some (_, r2) =>
      match spaces1 r2 with
      | none => none
      | some r3 =>
        if (r3.takeWhile Char.isUpper).isEmpty then none
        else
          match spaces1 (r3.dropWhile Char.isUpper) with
          | none => none
          | some r4 =>
            match unsignedDec r4 with
            | none => none
            | some (v, r5) =>
              match spaces1 r5 with
              | none => none
              | some r6 =>
                match r6 with
                | '*' :: _ => some v
                | _ => none
  | _ => none

/-- `extract_bond_length`: regex
`INTERNUCLEAR DISTANCES \(ANGS\.\).*?\n\s*\d+\s+[A-Z]+\s+([0-9]+\.\d+)\s+\*`
with `re.DOTALL`.  The leftmost match starts at the first occurrence of the
section header; the lazy `.*?` then selects the first following row. -/
def extract_bond_length (text : String) : Option Rat :=
  match dropToSubEnd bondHeaderStr.toList text.toList with
  | none => none
  | some rest => searchL tryRow rest

/-- Tail of the heat-of-formation regex at one position. -/
def tryHeat (cs : List Char) : Option Rat :=
  match dropLit heatStr.toList cs with
  | none => none
  | some r1 =>
    match spaces1 r1 with
    | none => none
    | some r2 => (signedDec r2).map Prod.fst

/-- `extract_heat_of_formation`: regex `HEAT OF FORMATION IS\s+(-?\d+\.\d+)`,
first occurrence, value via `float`. -/
def extract_heat_of_formation (text : String) : Option Rat :=
  searchL tryHeat text.toList

/-- Tail of the total-energy regex at one position. -/
def tryEnergy (cs : List Char) : Option Rat :=
  match dropLit energyStr.toList cs with
  | none => none
  | some r1 =>
    match spaces1 r1 with
    | none => none
    | some r2 =>
      match r2 with
      | '=' :: r3 =>
        match spaces1 r3 with
        | none => none
        | some r4 => (signedDec r4).map Prod.fst
      | _ => none

/-- `extract_total_energy`: regex `TOTAL ENERGY\s+=\s+(-?\d+\.\d+)`,
first occurrence, value via `float`. -/
def extract_total_energy (text : String) : Option Rat :=
  searchL tryEnergy text.toList

/-- One match of `TOTAL WALL CLOCK TIME=\s+([0-9]+\.\d+)` anchored at the
head, returning the captured group (kept as a string by the source). -/
def tryRT (cs : List Char) : Option String :=
  match dropLit rtStr.toList cs with
  | none => none
  | some r1 =>
    match spaces1 r1 with
    | none => none
    | some r2 => (decTok r2).map (fun p => String.mk p.1)

/-- The match at the rightmost starting position.  The literal
`TOTAL WALL CLOCK TIME=` has no nontrivial border and none of its characters
occur in the whitespace/digit tail of a match, so matches of this pattern can
never overlap, and the rightmost match is exactly the last element of
Python's `re.findall`. -/
def lastMatchRT : List Char → Option String
  | [] => tryRT []
  | c :: cs =>
    match lastMatchRT cs with
    | some s => some s
    | none => tryRT (c :: cs)

/-- `run_time`: `re.findall(r'TOTAL WALL CLOCK TIME=\s+([0-9]+\.\d+)', text)`
followed by `matches[-1] if matches else None`.  Note the source returns the
captured *string* (annotated `-> str | None`), not a float. -/
def run_time (text : String) : Option String :=
  lastMatchRT text.toList

-- ## Metadata: filename tier and fallback tier

/-- Split a character list on a separator character
(Python `str.split(sep)` for a single-character separator). -/
def splitOnCh (sep : Char) : List Char → List (List Char)
  | [] => [[]]
  | c :: cs =>
    match splitOnCh sep cs with
    | [] => [[]]
    | l :: ls => if c = sep then [] :: l :: ls else (c :: l) :: ls

/-- `pathlib.Path.stem`: the file name without its suffix, where the suffix
is `name[i:]` for the last `'.'` at index `i` with `0 < i < len - 1`. -/
def pyStem (name : String) : String :=
  let cs := name.toList
  let rev := cs.reverse
  let j := (rev.takeWhile (fun c => !(c = '.'))).length
  if j = rev.length then name
  else if j = 0 then name
  else if j = rev.length - 1 then name
  else String.mk (cs.take (cs.length - 1 - j))

/-- The metadata 4-tuple `(molecule, forcefield, basis, comp)` as returned by
`parse_filename` / `fallback_parse_input_section`: each component is a
string or Python `None`. -/
structure PyMeta where
  molecule : Option String
  forcefield : Option String
  basis : Option String
  comp : Option String
deriving DecidableEq

/-- `parse_filename`: `file.stem.split('_')` unpacked into exactly four
names; a `ValueError` (any other segment count) yields four `None`s. -/
def parse_filename (name : String) : PyMeta :=
  match splitOnCh '_' (pyStem name).toList with
  | [m, f, b, c] =>
    ⟨some (String.mk m), some (String.mk f), some (String.mk b), some (String.mk c)⟩
  | _ => ⟨none, none, none, none⟩

/-- Python `str.strip()` on a character list (remove leading and trailing
whitespace). -/
def pyStripList (cs : List Char) : List Char :=
  ((cs.dropWhile isSpaceCh).reverse.dropWhile isSpaceCh).reverse

/-- Python `str.strip()`. -/
def pyStrip (s : String) : String := String.mk (pyStripList s.toList)

def icStr : String := "INPUT CARD>!"

/-- One line's worth of the fallback regex
`INPUT CARD>!\s*(.*?)\s*\|\s*.*?\|\s*(.*?)\s*$` (with `re.MULTILINE`; `.`
never matches a newline, so a match lies within one line).  The match starts
at the first occurrence of the literal followed by at least two `'|'` on the
same line; group 1 is the trimmed text before the first `'|'`, group 2 the
trimmed text after the *second* `'|'`, running to the end of the line. -/
def tryLine (line : List Char) : Option (String × String) :=
  match dropToSubEnd icStr.toList line with
  | none => none
  | some rest =>
    let pre := rest.takeWhile (fun c => !(c = '|'))
    match rest.dropWhile (fun c => !(c = '|')) with
    | [] => none
    | _ :: r2 =>
      match r2.dropWhile (fun c => !(c = '|')) with
      | [] => none
      | _ :: r4 => some (String.mk (pyStripList pre), String.mk (pyStripList r4))

/-- First `some` produced by `f` along the list. -/
def firstSome {α β : Type} (f : α → Option β) : List α → Option β
  | [] => none
  | a :: rest =>
    match f a with
    | some b => some b
    | none => firstSome f rest

/-- The part of `fallback_parse_input_section` after the regex match:
`method_basis.split('/', 1)` with basis defaulting to `'Unknown'`, force
field always `'Unknown'`, and `str.strip()` applied as in the source. -/
def fallbackFromSegments (molecule mb : String) : PyMeta :=
  let mbs := mb.toList
  if mbs.contains '/' then
    let method := mbs.takeWhile (fun c => !(c = '/'))
    let basis :=
      match mbs.dropWhile (fun c => !(c = '/')) with
      | [] => []
      | _ :: r => r
    ⟨some molecule, some "Unknown", some (String.mk (pyStripList basis)),
      some (String.mk (pyStripList method))⟩
  else
    ⟨some molecule, some "Unknown", some "Unknown",
      some (String.mk (pyStripList mbs))⟩

/-- `fallback_parse_input_section`: search the text (line by line, per
`re.MULTILINE`) for the input-echo pattern; no match yields four `None`s. -/
def fallback_parse_input_section (text : String) : PyMeta :=
  match firstSome tryLine (splitOnCh '\n' text.toList) with
  | none => ⟨none, none, none, none⟩
  | some (mol, mb) => fallbackFromSegments mol mb

/-- `None in (molecule, ff, basis, method)`. -/
def noneIn (m : PyMeta) : Bool :=
  m.molecule.isNone || m.forcefield.isNone || m.basis.isNone || m.comp.isNone

/-- The two-tier metadata resolution of the main loop:
`parse_filename`, then `fallback_parse_input_section` when any component is
`None`. -/
def resolve_metadata (name text : String) : PyMeta :=
  let p := parse_filename name
  if noneIn p then fallback_parse_input_section text else p

-- ## Record building and classification (main loop, spreadsheet variant)

/-- A spreadsheet cell as produced by the record dictionary: a float, a
string, or Python `None` (rendered as an empty/NaN cell). -/
inductive CellVal where
  | num (q : Rat)
  | str (s : String)
  | null
deriving DecidableEq

def isNumCell : CellVal → Bool
  | .num _ => true
  | _ => false

def numCell : Option Rat → CellVal
  | some q => .num q
  | none => .str "NA"

def strCell : Option String → CellVal
  | some s => .str s
  | none => .str "NA"

def metaCell : Option String → CellVal
  | some s => .str s
  | none => .null

structure ResultRecord where
  molecule : CellVal
  force_field : CellVal
  basis : CellVal
  comp_method : CellVal
  bond_length : CellVal
  heat_of_formation : CellVal
  total_energy : CellVal
  run_time_s : CellVal
  completion : String
deriving DecidableEq

def terminationMarker : String := "EXECUTION OF GAMESS TERMINATED NORMALLY"

/-- The record dictionary built by the main loop. -/
def mkRecord (meta : PyMeta) (bond heat energy : Option Rat)
    (time : Option String) (completion : String) : ResultRecord :=
  ⟨metaCell meta.molecule, metaCell meta.forcefield, metaCell meta.basis,
    metaCell meta.comp, numCell bond, numCell heat, numCell energy,
    strCell time, completion⟩

/-- One iteration of the main loop of the spreadsheet variant: resolve
metadata, run the four extractors, then classify.  Missing termination
marker: the record is appended with completion `"Incomplete"`.  Marker
present and at least one of bond/heat/energy extracted: appended with
`"Completed"`.  Marker present and none extracted: nothing appended. -/
def process (name text : String) : Option ResultRecord :=
  let meta := resolve_metadata name text
  let bond := extract_bond_length text
  let heat := extract_heat_of_formation text
  let energy := extract_total_energy text
  let time := run_time text
  if hasSubStr terminationMarker text = false then
    some (mkRecord meta bond heat energy time "Incomplete")
  else if bond.isSome || heat.isSome || energy.isSome then
    some (mkRecord meta bond heat energy time "Completed")
  else none

/-- The whole batch: the `results` list after the main loop, in input
order. -/
def runBatch (inputs : List (String × String)) : List ResultRecord :=
  inputs.filterMap (fun p => process p.1 p.2)

-- ## Helper lemmas

lemma hasSub_false_dropToSubEnd {pat cs : List Char} (h : hasSub pat cs = false) :
    dropToSubEnd pat cs = none := by
  induction cs with
  | nil => simp only [hasSub] at h; simp [dropToSubEnd, h]
  | cons c cs ih =>
    simp only [hasSub, Bool.or_eq_false_iff] at h
    simp [dropToSubEnd, h.1, ih h.2]

lemma searchL_eq_none {α : Type} {tryAt : List Char → Option α} {pat : List Char}
    (htry : ∀ s, pat.isPrefixOf s = false → tryAt s = none) :
    ∀ {cs : List Char}, hasSub pat cs = false → searchL tryAt cs = none := by
  intro cs
  induction cs with
  | nil => intro h; simp only [hasSub] at h; simp [searchL, htry _ h]
  | cons c cs ih =>
    intro h
    simp only [hasSub, Bool.or_eq_false_iff] at h
    simp [searchL, htry _ h.1, ih h.2]

lemma tryRT_eq_none {s : List Char} (h : rtStr.toList.isPrefixOf s = false) :
    tryRT s = none := by
  simp only [tryRT, dropLit]
  rw [h]
  simp

lemma lastMatchRT_eq_none {cs : List Char} (h : hasSub rtStr.toList cs = false) :
    lastMatchRT cs = none := by
  induction cs with
  | nil => simp only [hasSub] at h; simp [lastMatchRT, tryRT_eq_none h]
  | cons c cs ih =>
    simp only [hasSub, Bool.or_eq_false_iff] at h
    simp [lastMatchRT, ih h.2, tryRT_eq_none h.1]

lemma lastMatchRT_append {t r : List Char} {v : String} (h : lastMatchRT r = some v) :
    lastMatchRT (t ++ r) = some v := by
  induction t with
  | nil => simpa using h
  | cons c t ih => simp [lastMatchRT, ih]

-- ## C1: completion classification

/-- C1.  For every log document: no termination marker means the record is
emitted labelled `Incomplete`; marker plus at least one extracted numeric
field means it is emitted labelled `Completed`; marker with none of
bond length / heat of formation / total energy means no record is emitted. -/
theorem classifier_spec (name text : String) :
    (hasSubStr terminationMarker text = false →
      (process name text).map ResultRecord.completion = some "Incomplete") ∧
    (hasSubStr terminationMarker text = true →
      ((extract_bond_length text).isSome || (extract_heat_of_formation text).isSome ||
        (extract_total_energy text).isSome) = true →
      (process name text).map ResultRecord.completion = some "Completed") ∧
    (hasSubStr terminationMarker text = true →
      extract_bond_length text = none → extract_heat_of_formation text = none →
      extract_total_energy text = none → process name text = none) := by
  refine ⟨?_, ?_, ?_⟩
  · intro h
    simp [process, h, mkRecord]
  · intro h h2
    simp [process, h, h2, mkRecord]
  · intro h h1 h2 h3
    simp [process, h, h1, h2, h3]

/-- C1 witness: the three classification outcomes at concrete inputs. -/
theorem classifier_spec_witness :
    (process "f.log" "no marker").map ResultRecord.completion = some "Incomplete" ∧
    (process "f.log"
        "EXECUTION OF GAMESS TERMINATED NORMALLY\n TOTAL ENERGY  =  -38.1").map
      ResultRecord.completion = some "Completed" ∧
    process "f.log" "EXECUTION OF GAMESS TERMINATED NORMALLY" = none :=
  ⟨(classifier_spec "f.log" "no marker").1 (by decide),
   (classifier_spec "f.log"
      "EXECUTION OF GAMESS TERMINATED NORMALLY\n TOTAL ENERGY  =  -38.1").2.1
      (by decide) (by decide),
   (classifier_spec "f.log" "EXECUTION OF GAMESS TERMINATED NORMALLY").2.2
      (by decide) (by decide) (by decide) (by decide)⟩

-- ## C2: atomic two-tier metadata resolution

def allSome (m : PyMeta) : Bool :=
  m.molecule.isSome && m.forcefield.isSome && m.basis.isSome && m.comp.isSome

def allNone (m : PyMeta) : Bool :=
  m.molecule.isNone && m.forcefield.isNone && m.basis.isNone && m.comp.isNone

lemma noneIn_eq_not_allSome (m : PyMeta) : noneIn m = !allSome m := by
  rcases m with ⟨_ | m1, _ | m2, _ | m3, _ | m4⟩ <;> rfl

lemma parse_filename_atomic (name : String) :
    allSome (parse_filename name) = true ∨ allNone (parse_filename name) = true := by
  unfold parse_filename
  split
  · left; rfl
  · right; rfl

lemma fallback_atomic (text : String) :
    allSome (fallback_parse_input_section text) = true ∨
    allNone (fallback_parse_input_section text) = true := by
  unfold fallback_parse_input_section
  split
  · right; rfl
  · next mol mb _ =>
    left
    simp only [fallbackFromSegments]
    split <;> rfl

/-- C2.  Metadata resolution is atomic: when the filename parse yields all
four segments the resolved tuple is exactly the filename-tier tuple (the
fallback result is never consulted); otherwise it is exactly the
fallback-tier tuple.  Moreover each tier itself is all-or-nothing, so no
record mixes values from the two tiers. -/
theorem resolve_metadata_atomic (name text : String) :
    (allSome (parse_filename name) = true →
      resolve_metadata name text = parse_filename name) ∧
    (allSome (parse_filename name) = false →
      resolve_metadata name text = fallback_parse_input_section text) ∧
    (allSome (parse_filename name) = true ∨ allNone (parse_filename name) = true) ∧
    (allSome (fallback_parse_input_section text) = true ∨
      allNone (fallback_parse_input_section text) = true) := by
  refine ⟨?_, ?_, parse_filename_atomic name, fallback_atomic text⟩
  · intro h
    simp [resolve_metadata, noneIn_eq_not_allSome, h]
  · intro h
    simp [resolve_metadata, noneIn_eq_not_allSome, h]

/-- C2 witness: a four-segment filename stays in tier 1; a delimiter-free
filename falls through to tier 2. -/
theorem resolve_metadata_atomic_witness :
    resolve_metadata "Water_FF1_631G_HF.log" "whatever" =
      parse_filename "Water_FF1_631G_HF.log" ∧
    resolve_metadata "badname.log" "abc" = fallback_parse_input_section "abc" :=
  ⟨(resolve_metadata_atomic "Water_FF1_631G_HF.log" "whatever").1 (by decide),
   (resolve_metadata_atomic "badname.log" "abc").2.1 (by decide)⟩

-- ## C3: RunTime takes the last wall-clock occurrence

lemma run_time_append {t r : String} {v : String} (h : run_time r = some v) :
    run_time (t ++ r) = some v := by
  unfold run_time at *
  have hd : (t ++ r).toList = t.toList ++ r.toList := String.data_append t r
  rw [hd]
  exact lastMatchRT_append h

/-- C3.  Whatever text precedes a final `TOTAL WALL CLOCK TIME= 45.6`
occurrence — in particular any number of earlier wall-clock occurrences —
the extractor returns the decimal of that last occurrence; and a text with
no occurrence of the pattern's literal yields absent. -/
theorem run_time_last_occurrence (t u : String) :
    run_time (t ++ "TOTAL WALL CLOCK TIME= 45.6") = some "45.6" ∧
    (hasSubStr rtStr u = false → run_time u = none) :=
  ⟨run_time_append (by decide), fun h => lastMatchRT_eq_none h⟩

/-- C3 witness: the spec's Example 1 (12.3 then 45.6 yields 45.6), and a
text with zero occurrences. -/
theorem run_time_last_occurrence_witness :
    run_time ("TOTAL WALL CLOCK TIME= 12.3\n" ++ "TOTAL WALL CLOCK TIME= 45.6") =
      some "45.6" ∧
    run_time "no clock here" = none :=
  ⟨(run_time_last_occurrence "TOTAL WALL CLOCK TIME= 12.3\n" "no clock here").1,
   (run_time_last_occurrence "TOTAL WALL CLOCK TIME= 12.3\n" "no clock here").2
     (by decide)⟩

-- ## C5: filename tier is split-into-exactly-four, all-or-nothing

/-- C5.  The filename tier splits the stem on `'_'`: exactly four segments
are taken in order as (molecule, forceField, basisSet, method); any other
segment count fails the whole tier, leaving all four fields unresolved. -/
theorem parse_filename_spec (name : String) (a b c d : List Char) :
    (splitOnCh '_' (pyStem name).toList = [a, b, c, d] →
      parse_filename name =
        ⟨some (String.mk a), some (String.mk b), some (String.mk c),
          some (String.mk d)⟩) ∧
    ((splitOnCh '_' (pyStem name).toList).length ≠ 4 →
      parse_filename name = ⟨none, none, none, none⟩) := by
  constructor
  · intro h
    unfold parse_filename
    rw [h]
  · intro h
    unfold parse_filename
    split
    · next m f b2 c2 heq => exact absurd (by rw [heq]; rfl) h
    · rfl

/-- C5 witness: the spec's Example 2, and a delimiter-free name that fails
the tier entirely. -/
theorem parse_filename_spec_witness :
    parse_filename "Water_FF1_631G_HF.log" =
      ⟨some "Water", some "FF1", some "631G", some "HF"⟩ ∧
    parse_filename "badname.log" = ⟨none, none, none, none⟩ :=
  ⟨(parse_filename_spec "Water_FF1_631G_HF.log"
      "Water".toList "FF1".toList "631G".toList "HF".toList).1 (by decide),
   (parse_filename_spec "badname.log" [] [] [] []).2 (by decide)⟩

-- ## C7: extractors are total, pure, and absent-on-no-match

lemma tryHeat_eq_none {s : List Char} (h : heatStr.toList.isPrefixOf s = false) :
    tryHeat s = none := by
  simp only [tryHeat, dropLit]
  rw [h]
  simp

lemma tryEnergy_eq_none {s : List Char} (h : energyStr.toList.isPrefixOf s = false) :
    tryEnergy s = none := by
  simp only [tryEnergy, dropLit]
  rw [h]
  simp

/-- C7.  Each of the four extractors is a total function of the text
returning a value or absent (the embedding is pure, so no mutation and no
escaping exception is possible); in particular, when the fixed literal of
the extractor's pattern does not occur in the text, the result is absent,
never an error. -/
theorem extractors_total_spec (text : String) :
    (hasSubStr bondHeaderStr text = false → extract_bond_length text = none) ∧
    (hasSubStr heatStr text = false → extract_heat_of_formation text = none) ∧
    (hasSubStr energyStr text = false → extract_total_energy text = none) ∧
    (hasSubStr rtStr text = false → run_time text = none) ∧
    (extract_bond_length text = none ∨ ∃ q, extract_bond_length text = some q) ∧
    (extract_heat_of_formation text = none ∨
      ∃ q, extract_heat_of_formation text = some q) ∧
    (extract_total_energy text = none ∨ ∃ q, extract_total_energy text = some q) ∧
    (run_time text = none ∨ ∃ s, run_time text = some s) := by
  refine ⟨?_, ?_, ?_, ?_, ?_, ?_, ?_, ?_⟩
  · intro h
    unfold extract_bond_length
    rw [hasSub_false_dropToSubEnd h]
  · intro h
    exact searchL_eq_none (fun s hs => tryHeat_eq_none hs) h
  · intro h
    exact searchL_eq_none (fun s hs => tryEnergy_eq_none hs) h
  · intro h
    exact lastMatchRT_eq_none h
  · rcases h : extract_bond_length text with _ | q
    · exact Or.inl rfl
    · exact Or.inr ⟨q, rfl⟩
  · rcases h : extract_heat_of_formation text with _ | q
    · exact Or.inl rfl
    · exact Or.inr ⟨q, rfl⟩
  · rcases h : extract_total_energy text with _ | q
    · exact Or.inl rfl
    · exact Or.inr ⟨q, rfl⟩
  · rcases h : run_time text with _ | s
    · exact Or.inl rfl
    · exact Or.inr ⟨s, rfl⟩

/-- C7 witness: on a text containing none of the four pattern literals every
extractor yields absent. -/
theorem extractors_total_spec_witness :
    extract_bond_length "hello" = none ∧ extract_heat_of_formation "hello" = none ∧
    extract_total_energy "hello" = none ∧ run_time "hello" = none :=
  ⟨(extractors_total_spec "hello").1 (by decide),
   (extractors_total_spec "hello").2.1 (by decide),
   (extractors_total_spec "hello").2.2.1 (by decide),
   (extractors_total_spec "hello").2.2.2.1 (by decide)⟩

-- ## C10: the pipeline is deterministic and stateless across files

/-- C10.  The extraction pipeline is a pure function of its input: a second
run over the same inputs produces the very same records, and processing a
batch twice in sequence produces exactly the records of each pass in order
(no hidden state links one file's processing to another's). -/
theorem pipeline_deterministic (inputs : List (String × String)) :
    runBatch inputs = runBatch inputs ∧
    runBatch (inputs ++ inputs) = runBatch inputs ++ runBatch inputs :=
  ⟨rfl, by simp [runBatch]⟩

-- ## C4: fallback capture boundaries

lemma splitOnCh_of_not_mem {sep : Char} {cs : List Char} (h : sep ∉ cs) :
    splitOnCh sep cs = [cs] := by
  induction cs with
  | nil => rfl
  | cons c cs ih =>
    rw [List.mem_cons, not_or] at h
    simp [splitOnCh, ih h.2, Ne.symm h.1]

lemma dropToSubEnd_append_self (pat r : List Char) :
    dropToSubEnd pat (pat ++ r) = some r := by
  match pat, r with
  | [], [] => rfl
  | [], c :: r => simp [dropToSubEnd]
  | p :: ps, r =>
    have hpre : (p :: ps).isPrefixOf (p :: (ps ++ r)) = true := by
      rw [List.isPrefixOf_iff_prefix]
      exact List.prefix_append _ _
    show dropToSubEnd (p :: ps) (p :: (ps ++ r)) = some r
    simp only [dropToSubEnd]
    rw [if_pos hpre]
    exact congrArg some (List.drop_left (p :: ps) r)

/-- C4 counterexample.  On a line with three `'|'` characters the source's
regex captures the method/basis segment after the *second* `'|'` (here
`C/D | E`, split at the first `'/'` into method `C` and basis `D | E`),
not after the last `'|'` (which would give method `E` and basis
`Unknown`). -/
theorem fallback_second_pipe_cex :
    fallback_parse_input_section "INPUT CARD>! A | B | C/D | E" =
      ⟨some "A", some "Unknown", some "D | E", some "C"⟩ ∧
    fallback_parse_input_section "INPUT CARD>! A | B | C/D | E" ≠
      ⟨some "A", some "Unknown", some "Unknown", some "E"⟩ := by
  constructor <;> decide

/-- C4 amended.  When the input-echo line is
`INPUT CARD>!<m>|<mid>|<rest>` with no `'|'` inside `<m>` or `<mid>` and no
newline, the molecule is the trimmed text before the first `'|'` and the
method/basis segment is the trimmed text after the second `'|'`, running to
the end of the line (it may itself contain further `'|'` characters); that
segment is then handed to the `'/'`-splitting step, which defaults the
basis to `Unknown` and always reports the force field as `Unknown`. -/
theorem fallback_capture_spec (m mid rest : String)
    (hm : '|' ∉ m.toList) (hmid : '|' ∉ mid.toList)
    (hn : '\n' ∉ ("INPUT CARD>!" ++ m ++ "|" ++ mid ++ "|" ++ rest).toList) :
    fallback_parse_input_section ("INPUT CARD>!" ++ m ++ "|" ++ mid ++ "|" ++ rest) =
      fallbackFromSegments (pyStrip m) (pyStrip rest) := by
  have hbar : ("|" : String).toList = ['|'] := rfl
  have hdata : ("INPUT CARD>!" ++ m ++ "|" ++ mid ++ "|" ++ rest).toList =
      icStr.toList ++ (m.toList ++ '|' :: (mid.toList ++ '|' :: rest.toList)) := by
    show ("INPUT CARD>!" ++ m ++ "|" ++ mid ++ "|" ++ rest).data = _
    simp [icStr]
  have hm' : ∀ a ∈ m.data, (!(a = '|')) = true := by
    intro a ha
    have hne : a ≠ '|' := fun hx => hm (hx ▸ ha)
    simp [hne]
  have hmid' : ∀ a ∈ mid.data, (!(a = '|')) = true := by
    intro a ha
    have hne : a ≠ '|' := fun hx => hmid (hx ▸ ha)
    simp [hne]
  have htl : tryLine (icStr.toList ++ (m.toList ++ '|' :: (mid.toList ++ '|' :: rest.toList))) =
      some (pyStrip m, pyStrip rest) := by
    simp only [tryLine, dropToSubEnd_append_self]
    simp [pyStrip, List.takeWhile_append_of_pos hm', List.dropWhile_append_of_pos hm',
      List.dropWhile_append_of_pos hmid']
  rw [hdata] at hn
  unfold fallback_parse_input_section
  rw [hdata, splitOnCh_of_not_mem hn]
  simp only [firstSome, htl]

/-- C4 witness: the amended capture rule at a concrete line with an extra
`'|'` in the tail segment. -/
theorem fallback_capture_spec_witness :
    fallback_parse_input_section ("INPUT CARD>!" ++ " A " ++ "|" ++ " B " ++ "|" ++ " C/D | E") =
      fallbackFromSegments (pyStrip " A ") (pyStrip " C/D | E") :=
  fallback_capture_spec " A " " B " " C/D | E" (by decide) (by decide) (by decide)

-- ## C6: shape of resolved metadata elements

lemma dropWhile_eq_self_of_prefix {p : Char → Bool} {l t : List Char}
    (h : l.dropWhile p = l) (hp : t <+: l) : t.dropWhile p = t := by
  cases t with
  | nil => rfl
  | cons c t' =>
    by_cases hc : p c = true
    · exfalso
      obtain ⟨s, hs⟩ := hp
      rw [← hs, List.cons_append, List.dropWhile_cons, if_pos hc] at h
      have hlen := (List.dropWhile_suffix p (l := t' ++ s)).length_le
      have := congrArg List.length h
      simp only [List.length_cons] at this
      omega
    · rw [List.dropWhile_cons, if_neg hc]

lemma pyStripList_idem (cs : List Char) :
    pyStripList (pyStripList cs) = pyStripList cs := by
  have hd : (cs.dropWhile isSpaceCh).dropWhile isSpaceCh = cs.dropWhile isSpaceCh :=
    List.dropWhile_idempotent isSpaceCh cs
  have hpre : ((cs.dropWhile isSpaceCh).reverse.dropWhile isSpaceCh).reverse <+:
      cs.dropWhile isSpaceCh := by
    have h2 := List.dropWhile_suffix (l := (cs.dropWhile isSpaceCh).reverse) isSpaceCh
    have h3 := List.reverse_prefix.mpr h2
    rwa [List.reverse_reverse] at h3
  have h1 := dropWhile_eq_self_of_prefix hd hpre
  unfold pyStripList
  rw [h1, List.reverse_reverse, List.dropWhile_idempotent]

lemma pyStrip_mk_pyStripList (cs : List Char) :
    pyStrip (String.mk (pyStripList cs)) = String.mk (pyStripList cs) :=
  congrArg String.mk (pyStripList_idem cs)

lemma tryLine_stripped {line : List Char} {pr : String × String}
    (h : tryLine line = some pr) : pyStrip pr.1 = pr.1 ∧ pyStrip pr.2 = pr.2 := by
  simp only [tryLine] at h
  split at h
  · exact absurd h (by simp)
  · split at h
    · exact absurd h (by simp)
    · split at h
      · exact absurd h (by simp)
      · cases h
        exact ⟨pyStrip_mk_pyStripList _, pyStrip_mk_pyStripList _⟩

lemma firstSome_pres {α β : Type} {f : α → Option β} {P : β → Prop}
    (hf : ∀ a b, f a = some b → P b) :
    ∀ {l : List α} {b : β}, firstSome f l = some b → P b := by
  intro l
  induction l with
  | nil => intro b h; simp [firstSome] at h
  | cons a rest ih =>
    intro b h
    unfold firstSome at h
    cases hfa : f a with
    | some c => rw [hfa] at h; cases h; exact hf a b hfa
    | none => rw [hfa] at h; exact ih h

/-- The property C6 claims of every resolved metadata element: a resolved
element is a trimmed, non-empty string. -/
def claimTrimmedNonEmpty (o : Option String) : Prop :=
  ∀ s, o = some s → s ≠ "" ∧ pyStrip s = s

/-- C6 counterexample.  The filename `a___b.log` splits into the four
segments `a`, ``, ``, `b`, so tier 1 succeeds and the resolved force-field
and basis elements are the *empty* string — a resolved element that is not
a trimmed non-empty string. -/
theorem metadata_trimmed_cex :
    resolve_metadata "a___b.log" "" = ⟨some "a", some "", some "", some "b"⟩ ∧
    ¬ claimTrimmedNonEmpty (some "") :=
  ⟨by decide, fun h => (h "" rfl).1 rfl⟩

/-- C6 amended.  Every metadata element handed to the caller is a string or
the unresolved marker, but resolved elements may be empty and
filename-tier segments are passed through verbatim (untrimmed); only in
the fallback tier are the elements trimmed: molecule, basis and method
carry no surrounding whitespace and the force field is the literal
`Unknown`. -/
theorem fallback_elements_trimmed (text : String) (m f b c : String)
    (h : fallback_parse_input_section text = ⟨some m, some f, some b, some c⟩) :
    pyStrip m = m ∧ f = "Unknown" ∧ pyStrip b = b ∧ pyStrip c = c := by
  unfold fallback_parse_input_section at h
  cases hfs : firstSome tryLine (splitOnCh '\n' text.toList) with
  | none => rw [hfs] at h; simp at h
  | some pr =>
    rw [hfs] at h
    have hpr : pyStrip pr.1 = pr.1 ∧ pyStrip pr.2 = pr.2 :=
      firstSome_pres (fun _ _ hab => tryLine_stripped hab) hfs
    obtain ⟨mol, mb⟩ := pr
    change fallbackFromSegments mol mb = _ at h
    simp only [fallbackFromSegments] at h
    by_cases hc : mb.toList.contains '/' = true
    · rw [if_pos hc, PyMeta.mk.injEq] at h
      obtain ⟨h1, h2, h3, h4⟩ := h
      simp only [Option.some_inj] at h1 h2 h3 h4
      subst h1; subst h2; subst h3; subst h4
      exact ⟨hpr.1, rfl, pyStrip_mk_pyStripList _, pyStrip_mk_pyStripList _⟩
    · rw [if_neg hc, PyMeta.mk.injEq] at h
      obtain ⟨h1, h2, h3, h4⟩ := h
      simp only [Option.some_inj] at h1 h2 h3 h4
      subst h1; subst h2; subst h3; subst h4
      exact ⟨hpr.1, rfl, by decide, pyStrip_mk_pyStripList _⟩

/-- C6 witness: the amended trimmedness guarantee at the spec's Example 3
fallback text. -/
theorem fallback_elements_trimmed_witness :
    pyStrip "Methane" = "Methane" ∧ ("Unknown" : String) = "Unknown" ∧
    pyStrip "6-31G*" = "6-31G*" ∧ pyStrip "B3LYP" = "B3LYP" :=
  fallback_elements_trimmed "INPUT CARD>! Methane | ignored | B3LYP/6-31G*"
    "Methane" "Unknown" "6-31G*" "B3LYP" (by decide)

-- ## C8: which cells are numeric

/-- Record produced for a file whose name has no `'_'` convention and whose
empty body has no marker, no input echo and no extractable field. -/
def recNullNA : ResultRecord :=
  ⟨.null, .null, .null, .null, .str "NA", .str "NA", .str "NA", .str "NA", "Incomplete"⟩

/-- C8 counterexample.  On a completed log with a wall-clock line, the
emitted Run_Time cell holds the captured *string* `"45.6"` — the source's
`run_time` is annotated `-> str | None` and never converts to float — so
the RunTime field, though present, is not a float value. -/
theorem run_time_not_float_cex :
    (process "a_b_c_d.log"
        "EXECUTION OF GAMESS TERMINATED NORMALLY\n TOTAL ENERGY  =  -38.1\nTOTAL WALL CLOCK TIME= 45.6").map
      (fun r => r.run_time_s) = some (CellVal.str "45.6") ∧
    (process "a_b_c_d.log"
        "EXECUTION OF GAMESS TERMINATED NORMALLY\n TOTAL ENERGY  =  -38.1\nTOTAL WALL CLOCK TIME= 45.6").map
      (fun r => isNumCell r.run_time_s) = some false := by
  constructor <;> rfl

lemma numCell_spec (o : Option Rat) :
    isNumCell (numCell o) = true ∨ numCell o = .str "NA" := by
  cases o with
  | none => exact Or.inr rfl
  | some q => exact Or.inl rfl

lemma strCell_spec (o : Option String) : ∃ s, strCell o = CellVal.str s := by
  cases o with
  | none => exact ⟨"NA", rfl⟩
  | some s => exact ⟨s, rfl⟩

/-- C8 amended.  In every emitted record the BondLength, HeatOfFormation
and TotalEnergy cells are each a float value or the sentinel `"NA"`, while
the Run_Time cell is always a *string* (the captured decimal text when a
wall-clock marker matched, `"NA"` otherwise) — never a float. -/
theorem field_cells_spec (name text : String) (r : ResultRecord)
    (h : process name text = some r) :
    (isNumCell r.bond_length = true ∨ r.bond_length = .str "NA") ∧
    (isNumCell r.heat_of_formation = true ∨ r.heat_of_formation = .str "NA") ∧
    (isNumCell r.total_energy = true ∨ r.total_energy = .str "NA") ∧
    (∃ s, r.run_time_s = CellVal.str s) ∧ isNumCell r.run_time_s = false := by
  simp only [process] at h
  split at h
  · injection h with h
    subst h
    refine ⟨numCell_spec _, numCell_spec _, numCell_spec _, strCell_spec _, ?_⟩
    obtain ⟨s, hs⟩ := strCell_spec (run_time text)
    show isNumCell (strCell (run_time text)) = false
    rw [hs]
    rfl
  · split at h
    · injection h with h
      subst h
      refine ⟨numCell_spec _, numCell_spec _, numCell_spec _, strCell_spec _, ?_⟩
      obtain ⟨s, hs⟩ := strCell_spec (run_time text)
      show isNumCell (strCell (run_time text)) = false
      rw [hs]
      rfl
    · exact absurd h (by simp)

/-- C8 witness: the amended cell shapes on a concretely emitted record. -/
theorem field_cells_spec_witness :
    (isNumCell recNullNA.bond_length = true ∨ recNullNA.bond_length = .str "NA") ∧
    (isNumCell recNullNA.heat_of_formation = true ∨
      recNullNA.heat_of_formation = .str "NA") ∧
    (isNumCell recNullNA.total_energy = true ∨ recNullNA.total_energy = .str "NA") ∧
    (∃ s, recNullNA.run_time_s = CellVal.str s) ∧
    isNumCell recNullNA.run_time_s = false :=
  field_cells_spec "x.log" "" recNullNA (by decide)

-- ## C9: rendering of absent fields

/-- C9 counterexample.  When both resolver tiers fail the emitted record's
metadata cells hold Python `None` (a null cell), not the sentinel string
`"NA"`: the main loop writes `"molecule": molecule` without any
`if ... is not None else 'NA'` guard on the four metadata keys. -/
theorem metadata_null_cex :
    (process "x.log" "").map (fun r => r.molecule) = some CellVal.null ∧
    CellVal.null ≠ CellVal.str "NA" := by
  constructor
  · rfl
  · intro h
    cases h

/-- C9 amended.  In every emitted record the four measured fields
(bond length, heat of formation, total energy, run time) are rendered as
the sentinel `"NA"` when absent, but an unresolved metadata element is
rendered as a null cell (Python `None`), not as `"NA"`. -/
theorem na_rendering_spec (name text : String) (r : ResultRecord)
    (h : process name text = some r) :
    (extract_bond_length text = none → r.bond_length = CellVal.str "NA") ∧
    (extract_heat_of_formation text = none → r.heat_of_formation = CellVal.str "NA") ∧
    (extract_total_energy text = none → r.total_energy = CellVal.str "NA") ∧
    (run_time text = none → r.run_time_s = CellVal.str "NA") ∧
    ((resolve_metadata name text).molecule = none → r.molecule = CellVal.null) ∧
    ((resolve_metadata name text).forcefield = none → r.force_field = CellVal.null) ∧
    ((resolve_metadata name text).basis = none → r.basis = CellVal.null) ∧
    ((resolve_metadata name text).comp = none → r.comp_method = CellVal.null) := by
  simp only [process] at h
  split at h
  · injection h with h
    subst h
    refine ⟨fun hx => ?_, fun hx => ?_, fun hx => ?_, fun hx => ?_,
      fun hx => ?_, fun hx => ?_, fun hx => ?_, fun hx => ?_⟩ <;>
      simp [mkRecord, hx, numCell, strCell, metaCell]
  · split at h
    · injection h with h
      subst h
      refine ⟨fun hx => ?_, fun hx => ?_, fun hx => ?_, fun hx => ?_,
        fun hx => ?_, fun hx => ?_, fun hx => ?_, fun hx => ?_⟩ <;>
        simp [mkRecord, hx, numCell, strCell, metaCell]
    · exact absurd h (by simp)

/-- C9 witness: the amended rendering at a record whose fields are all
absent and whose metadata is wholly unresolved. -/
theorem na_rendering_spec_witness :
    recNullNA.bond_length = CellVal.str "NA" ∧ recNullNA.run_time_s = CellVal.str "NA" ∧
    recNullNA.molecule = CellVal.null := by
  have H := na_rendering_spec "x.log" "" recNullNA (by decide)
  exact ⟨H.1 (by decide), H.2.2.2.1 (by decide), H.2.2.2.2.1 (by decide)⟩

end Gamess
